import Mathlib

/-!
Verification of the OpenImageIO `TypeDesc` facility
(`src/include/OpenImageIO/typedesc.h`).

The C++ struct `TypeDesc` is embedded shallowly: its four `unsigned char`
fields become `Nat` fields, its `int arraylen` becomes `Int`, and the
machine-representation invariants (each byte field is `< 256`, `arraylen`
fits in a signed 32-bit `int`) are carried as the well-formedness
predicate `TypeDesc.WF`.  Functions defined in the header are translated
from the header; functions whose bodies live in `typedesc.cpp` (which is
not part of the sources here) are modelled from the specification and are
marked `Modelled from the spec:` in their doc comments.
-/

/-- The `TypeDesc` value type: base kind, aggregate arity, semantic hint,
a reserved byte, and the array length (`0` = not an array, positive =
sized array, negative = array of unspecified length). -/
structure TypeDesc where
  basetype : Nat
  aggregate : Nat
  vecsemantics : Nat
  reserved : Nat
  arraylen : Int
deriving DecidableEq

namespace TypeDesc

/-! ### The BASETYPE enumeration (values as in the C++ enum) -/

def UNKNOWN : Nat := 0
def NONE : Nat := 1
def UINT8 : Nat := 2
def INT8 : Nat := 3
def UINT16 : Nat := 4
def INT16 : Nat := 5
def UINT32 : Nat := 6
def INT32 : Nat := 7
def UINT64 : Nat := 8
def INT64 : Nat := 9
def HALF : Nat := 10
def FLOAT : Nat := 11
def DOUBLE : Nat := 12
def STRING : Nat := 13
def PTR : Nat := 14
def USTRINGHASH : Nat := 15
def LASTBASE : Nat := 16

/-! ### The AGGREGATE enumeration -/

def SCALAR : Nat := 1
def VEC2 : Nat := 2
def VEC3 : Nat := 3
def VEC4 : Nat := 4
def MATRIX33 : Nat := 9
def MATRIX44 : Nat := 16

/-! ### The VECSEMANTICS enumeration -/

def NOSEMANTICS : Nat := 0
def COLOR : Nat := 1
def POINT : Nat := 2
def VECTOR : Nat := 3
def NORMAL : Nat := 4
def TIMECODE : Nat := 5
def KEYCODE : Nat := 6
def RATIONAL : Nat := 7
def BOX : Nat := 8

/-- Machine-representation invariants of the C++ struct: the three byte
fields are `unsigned char` (< 256) and `arraylen` is a signed 32-bit
`int`. -/
def WF (t : TypeDesc) : Prop :=
  t.basetype < 256 ∧ t.aggregate < 256 ∧ t.vecsemantics < 256 ∧
    -(2 ^ 31) ≤ t.arraylen ∧ t.arraylen < 2 ^ 31

instance (t : TypeDesc) : Decidable t.WF := by unfold WF; infer_instance

/-- The debug assertion `OIIO_DASSERT(arraylen >= 0)` guarding
`numelements()` and `size()`: `true` when the call is legal, `false` when
a debug build would fail fast. -/
def lenAssertOK (t : TypeDesc) : Bool := decide (0 ≤ t.arraylen)

/-- `numelements()`: release-build value of `(arraylen >= 1 ? arraylen : 1)`. -/
def numelements (t : TypeDesc) : Nat :=
  if 1 ≤ t.arraylen then t.arraylen.toNat else 1

/-- `basevalues()`: `numelements() * aggregate`. -/
def basevalues (t : TypeDesc) : Nat := t.numelements * t.aggregate

/-- `is_array()`: `arraylen != 0`. -/
def is_array (t : TypeDesc) : Bool := decide (t.arraylen ≠ 0)

/-- `is_unsized_array()`: `arraylen < 0`. -/
def is_unsized_array (t : TypeDesc) : Bool := decide (t.arraylen < 0)

/-- `is_sized_array()`: `arraylen > 0`. -/
def is_sized_array (t : TypeDesc) : Bool := decide (0 < t.arraylen)

/-- Modelled from the spec: `basesize()` is implemented in `typedesc.cpp`,
which is not among the sources; the spec describes it as a fixed lookup by
base kind — 1/2/4/8 bytes for integers and floats of matching width, the
platform pointer width (8 on the modelled LP64 platform) for the pointer
kind, a fixed 8-byte width for the string-hash kind, and a pointer-sized
sentinel for the string kind.  Unknown/none have no payload (0 bytes). -/
def basesize (t : TypeDesc) : Nat :=
  if t.basetype = 2 ∨ t.basetype = 3 then 1
  else if t.basetype = 4 ∨ t.basetype = 5 ∨ t.basetype = 10 then 2
  else if t.basetype = 6 ∨ t.basetype = 7 ∨ t.basetype = 11 then 4
  else if t.basetype = 8 ∨ t.basetype = 9 ∨ t.basetype = 12 ∨ t.basetype = 13
      ∨ t.basetype = 14 ∨ t.basetype = 15 then 8
  else 0

/-- `elementsize()`: `aggregate * basesize()`. -/
def elementsize (t : TypeDesc) : Nat := t.aggregate * t.basesize

/-- `size()`, parameterised by `szt = sizeof(size_t)` (4 or 8;
`sizeof(int)` is 4).  On a platform where `size_t` is wider than `int`
the product is computed directly in `size_t`; otherwise it is computed in
`unsigned long long` and clamped to the maximum `size_t`. -/
def size (szt : Nat) (t : TypeDesc) : Nat :=
  let a : Nat := if 0 < t.arraylen then t.arraylen.toNat else 1
  if 4 < szt then
    (a * t.elementsize) % 2 ^ (8 * szt)
  else
    let s := (a * t.elementsize) % 2 ^ 64
    let toobig := 2 ^ (8 * szt) - 1
    if s < toobig then s else toobig

/-- `elementtype()`: copy of `t` with `arraylen = 0`. -/
def elementtype (t : TypeDesc) : TypeDesc := { t with arraylen := 0 }

/-- `scalartype()`: `TypeDesc(BASETYPE(basetype))`, i.e. the bare scalar
descriptor of the same base kind (constructor defaults: aggregate SCALAR,
semantics NOSEMANTICS, arraylen 0, reserved 0). -/
def scalartype (t : TypeDesc) : TypeDesc := ⟨t.basetype, 1, 0, 0, 0⟩

/-- `operator==` on two descriptors: all four public fields must match
(the reserved byte is not compared). -/
def tdEq (a b : TypeDesc) : Bool :=
  a.basetype == b.basetype && a.aggregate == b.aggregate &&
    a.vecsemantics == b.vecsemantics && a.arraylen == b.arraylen

/-- `operator==(const TypeDesc&, BASETYPE)`: same base type, scalar
aggregate, and not an array. -/
def tdEqBase (t : TypeDesc) (b : Nat) : Bool :=
  t.basetype == b && t.aggregate == 1 && !(t.is_array)

/-- `equivalent(a, b)`: equal base and aggregate, and array lengths equal
or one unsized while the other is sized. -/
def equivalent (a b : TypeDesc) : Bool :=
  a.basetype == b.basetype && a.aggregate == b.aggregate &&
    (a.arraylen == b.arraylen || (a.is_unsized_array && b.is_sized_array)
      || (a.is_sized_array && b.is_unsized_array))

end TypeDesc

/-! ### The catalog of well-known constant descriptors (header lines 385-420) -/

def TypeUnknown : TypeDesc := ⟨0, 1, 0, 0, 0⟩
def TypeFloat : TypeDesc := ⟨11, 1, 0, 0, 0⟩
def TypeColor : TypeDesc := ⟨11, 3, 1, 0, 0⟩
def TypePoint : TypeDesc := ⟨11, 3, 2, 0, 0⟩
def TypeVector : TypeDesc := ⟨11, 3, 3, 0, 0⟩
def TypeNormal : TypeDesc := ⟨11, 3, 4, 0, 0⟩
def TypeMatrix33 : TypeDesc := ⟨11, 9, 0, 0, 0⟩
def TypeMatrix44 : TypeDesc := ⟨11, 16, 0, 0, 0⟩
def TypeMatrix : TypeDesc := TypeMatrix44
def TypeFloat2 : TypeDesc := ⟨11, 2, 0, 0, 0⟩
def TypeVector2 : TypeDesc := ⟨11, 2, 3, 0, 0⟩
def TypeFloat4 : TypeDesc := ⟨11, 4, 0, 0, 0⟩
def TypeVector4 : TypeDesc := TypeFloat4
def TypeString : TypeDesc := ⟨13, 1, 0, 0, 0⟩
def TypeInt : TypeDesc := ⟨7, 1, 0, 0, 0⟩
def TypeUInt : TypeDesc := ⟨6, 1, 0, 0, 0⟩
def TypeInt32 : TypeDesc := ⟨7, 1, 0, 0, 0⟩
def TypeUInt32 : TypeDesc := ⟨6, 1, 0, 0, 0⟩
def TypeInt16 : TypeDesc := ⟨5, 1, 0, 0, 0⟩
def TypeUInt16 : TypeDesc := ⟨4, 1, 0, 0, 0⟩
def TypeInt8 : TypeDesc := ⟨3, 1, 0, 0, 0⟩
def TypeUInt8 : TypeDesc := ⟨2, 1, 0, 0, 0⟩
def TypeInt64 : TypeDesc := ⟨9, 1, 0, 0, 0⟩
def TypeUInt64 : TypeDesc := ⟨8, 1, 0, 0, 0⟩
def TypeVector2i : TypeDesc := ⟨7, 2, 0, 0, 0⟩
def TypeVector3i : TypeDesc := ⟨7, 3, 0, 0, 0⟩
def TypeBox2 : TypeDesc := ⟨11, 2, 8, 0, 2⟩
def TypeBox3 : TypeDesc := ⟨11, 3, 8, 0, 2⟩
def TypeBox2i : TypeDesc := ⟨7, 2, 8, 0, 2⟩
def TypeBox3i : TypeDesc := ⟨7, 3, 8, 0, 2⟩
def TypeHalf : TypeDesc := ⟨10, 1, 0, 0, 0⟩
def TypeTimeCode : TypeDesc := ⟨6, 1, 5, 0, 2⟩
def TypeKeyCode : TypeDesc := ⟨7, 1, 6, 0, 7⟩
def TypeRational : TypeDesc := ⟨7, 2, 7, 0, 0⟩
def TypePointer : TypeDesc := ⟨14, 1, 0, 0, 0⟩
def TypeUstringhash : TypeDesc := ⟨15, 1, 0, 0, 0⟩

/-- The full catalog of well-known constants, in header order. -/
def wellKnownTypes : List TypeDesc :=
  [TypeUnknown, TypeFloat, TypeColor, TypePoint, TypeVector, TypeNormal,
   TypeMatrix33, TypeMatrix44, TypeMatrix, TypeFloat2, TypeVector2,
   TypeFloat4, TypeVector4, TypeString, TypeInt, TypeUInt, TypeInt32,
   TypeUInt32, TypeInt16, TypeUInt16, TypeInt8, TypeUInt8, TypeInt64,
   TypeUInt64, TypeVector2i, TypeVector3i, TypeBox2, TypeBox3, TypeBox2i,
   TypeBox3i, TypeHalf, TypeTimeCode, TypeKeyCode, TypeRational,
   TypePointer, TypeUstringhash]

/-- The well-known constants whose base/aggregate combination has a name
in the spec's type-name grammar: every scalar-aggregate constant and
every float-based aggregate constant.  The five constants left out
(`TypeVector2i`, `TypeVector3i`, `TypeBox2i`, `TypeBox3i`,
`TypeRational`) pair an integer base kind with a non-scalar aggregate,
a combination that no keyword of the grammar denotes. -/
def nameableTypes : List TypeDesc :=
  [TypeUnknown, TypeFloat, TypeColor, TypePoint, TypeVector, TypeNormal,
   TypeMatrix33, TypeMatrix44, TypeMatrix, TypeFloat2, TypeVector2,
   TypeFloat4, TypeVector4, TypeString, TypeInt, TypeUInt, TypeInt32,
   TypeUInt32, TypeInt16, TypeUInt16, TypeInt8, TypeUInt8, TypeInt64,
   TypeUInt64, TypeBox2, TypeBox3, TypeHalf, TypeTimeCode, TypeKeyCode,
   TypePointer, TypeUstringhash]

/-! ### Name parsing and formatting

`TypeDesc::fromstring`, the string constructor and `c_str` are
implemented in `typedesc.cpp`, which is not among the sources, so the
whole string layer below is modelled from the spec (sections 4.2 and 6):
a type name is a base-kind keyword or an aggregate/semantic keyword,
optionally followed by `[N]` (fixed length), or by `[]` / `[ ]`
(unresolved length).  Names are embedded as `List Char`. -/

/-- Boolean prefix test on character lists. -/
def charsPrefix : List Char → List Char → Bool
  | [], _ => true
  | _ :: _, [] => false
  | a :: as, b :: bs => a == b && charsPrefix as bs

/-- Boolean suffix test on character lists. -/
def charsSuffix (l suf : List Char) : Bool := charsPrefix suf.reverse l.reverse

/-- Modelled from the spec: the keyword table of the name grammar.  Base
keywords cover every enumerated base kind (with the common aliases
`int`/`int32`, `uint`/`uint32`); the aggregate/semantic keywords `point`,
`vector`, `normal`, `color`, `matrix33`, `matrix44`/`matrix`, `vector2`,
`vector4` expand to a full base+aggregate+semantics combination.  The
table is ordered by decreasing keyword length so that first-prefix-match
is longest-match. -/
def keywordTable : List (List Char × TypeDesc) :=
  [(['u','s','t','r','i','n','g','h','a','s','h'], ⟨15, 1, 0, 0, 0⟩),
   (['m','a','t','r','i','x','3','3'], ⟨11, 9, 0, 0, 0⟩),
   (['m','a','t','r','i','x','4','4'], ⟨11, 16, 0, 0, 0⟩),
   (['u','n','k','n','o','w','n'], ⟨0, 1, 0, 0, 0⟩),
   (['p','o','i','n','t','e','r'], ⟨14, 1, 0, 0, 0⟩),
   (['v','e','c','t','o','r','2'], ⟨11, 2, 3, 0, 0⟩),
   (['v','e','c','t','o','r','4'], ⟨11, 4, 0, 0, 0⟩),
   (['d','o','u','b','l','e'], ⟨12, 1, 0, 0, 0⟩),
   (['n','o','r','m','a','l'], ⟨11, 3, 4, 0, 0⟩),
   (['s','t','r','i','n','g'], ⟨13, 1, 0, 0, 0⟩),
   (['u','i','n','t','1','6'], ⟨4, 1, 0, 0, 0⟩),
   (['u','i','n','t','3','2'], ⟨6, 1, 0, 0, 0⟩),
   (['u','i','n','t','6','4'], ⟨8, 1, 0, 0, 0⟩),
   (['v','e','c','t','o','r'], ⟨11, 3, 3, 0, 0⟩),
   (['m','a','t','r','i','x'], ⟨11, 16, 0, 0, 0⟩),
   (['i','n','t','1','6'], ⟨5, 1, 0, 0, 0⟩),
   (['i','n','t','3','2'], ⟨7, 1, 0, 0, 0⟩),
   (['i','n','t','6','4'], ⟨9, 1, 0, 0, 0⟩),
   (['f','l','o','a','t'], ⟨11, 1, 0, 0, 0⟩),
   (['c','o','l','o','r'], ⟨11, 3, 1, 0, 0⟩),
   (['p','o','i','n','t'], ⟨11, 3, 2, 0, 0⟩),
   (['u','i','n','t','8'], ⟨2, 1, 0, 0, 0⟩),
   (['u','i','n','t'], ⟨6, 1, 0, 0, 0⟩),
   (['i','n','t','8'], ⟨3, 1, 0, 0, 0⟩),
   (['h','a','l','f'], ⟨10, 1, 0, 0, 0⟩),
   (['n','o','n','e'], ⟨1, 1, 0, 0, 0⟩),
   (['i','n','t'], ⟨7, 1, 0, 0, 0⟩)]

/-- Find the first table keyword that is a prefix of the input; return
its length and the descriptor it denotes. -/
def matchKeyword : List (List Char × TypeDesc) → List Char → Option (Nat × TypeDesc)
  | [], _ => none
  | (k, td) :: tbl, s => if charsPrefix k s then some (k.length, td) else matchKeyword tbl s

def digitVal (c : Char) : Nat := c.toNat - 48

/-- Decimal value of a digit string (most significant digit first). -/
def digitsToNat (l : List Char) : Nat := l.foldl (fun a c => a * 10 + digitVal c) 0

/-- Split off the longest leading run of decimal digits. -/
def takeDigits : List Char → List Char × List Char
  | [] => ([], [])
  | c :: rest =>
    if c.isDigit then (c :: (takeDigits rest).1, (takeDigits rest).2)
    else ([], c :: rest)

/-- Count and drop leading spaces. -/
def skipSpaces : List Char → Nat × List Char
  | [] => (0, [])
  | c :: rest =>
    if c = ' ' then ((skipSpaces rest).1 + 1, (skipSpaces rest).2)
    else (0, c :: rest)

/-- Does the input start with a closing bracket? -/
def isCloseBracket (l : List Char) : Bool :=
  match l with
  | [] => false
  | c :: _ => c = ']'

/-- Modelled from the spec: the optional array-bracket suffix of a type
name.  `[N]` gives a fixed length `N`, `[]` (possibly with spaces inside,
as in the spec's `uint16[ ]` example) gives the unresolved length `-1`,
absence of a bracket leaves the length `0`.  A malformed bracket
expression fails the whole parse (`none`).  Returns the number of
characters consumed and the array length. -/
def parseBracketTail : List Char → Option (Nat × Int)
  | [] => some (0, 0)
  | c :: rest =>
    if c = '[' then
      if (takeDigits rest).1.isEmpty then
        if isCloseBracket (skipSpaces rest).2 then some (2 + (skipSpaces rest).1, -1)
        else none
      else if isCloseBracket (takeDigits rest).2 then
        some ((takeDigits rest).1.length + 2, (digitsToNat (takeDigits rest).1 : Int))
      else none
    else some (0, 0)

/-- Modelled from the spec: `TypeDesc::fromstring` — parse a leading type
name, returning how many characters were consumed and the resulting
descriptor.  On failure (unrecognized keyword or malformed bracket) no
characters are consumed and the unknown descriptor is returned.  The
function is total: it never throws or aborts. -/
def fromstring (s : List Char) : Nat × TypeDesc :=
  ((matchKeyword keywordTable s).bind (fun p =>
      (parseBracketTail (s.drop p.1)).map (fun q =>
        (p.1 + q.1, { p.2 with arraylen := q.2 })))).getD (0, ⟨0, 1, 0, 0, 0⟩)

/-- Modelled from the spec: the member `fromstring` mutates `*this` on
success; per the header contract (typedesc.h lines 250-254) it returns 0
and does *not* modify `*this` when no valid type could be assembled.
`t0` is the prior value of the descriptor. -/
def fromstringInto (t0 : TypeDesc) (s : List Char) : Nat × TypeDesc :=
  if (fromstring s).1 = 0 then (0, t0) else fromstring s

/-- Modelled from the spec: the string constructor `TypeDesc(string_view)`
starts from the default (unknown) descriptor and runs `fromstring`, so a
failed parse leaves the descriptor at the unknown state. -/
def typeDescOfChars (s : List Char) : TypeDesc :=
  (fromstringInto ⟨0, 1, 0, 0, 0⟩ s).2

/-- Digits of a natural number, most significant first (fuel-based so the
kernel can evaluate it). -/
def natToCharsAux : Nat → Nat → List Char → List Char
  | 0, _, acc => acc
  | fuel + 1, n, acc =>
    if n < 10 then Char.ofNat (48 + n) :: acc
    else natToCharsAux fuel (n / 10) (Char.ofNat (48 + n % 10) :: acc)

def natToChars (n : Nat) : List Char := natToCharsAux (n + 1) n []

/-- Modelled from the spec: the base-kind part of a canonical type name. -/
def baseName (b : Nat) : List Char :=
  if b = 1 then ['n','o','n','e']
  else if b = 2 then ['u','i','n','t','8']
  else if b = 3 then ['i','n','t','8']
  else if b = 4 then ['u','i','n','t','1','6']
  else if b = 5 then ['i','n','t','1','6']
  else if b = 6 then ['u','i','n','t']
  else if b = 7 then ['i','n','t']
  else if b = 8 then ['u','i','n','t','6','4']
  else if b = 9 then ['i','n','t','6','4']
  else if b = 10 then ['h','a','l','f']
  else if b = 11 then ['f','l','o','a','t']
  else if b = 12 then ['d','o','u','b','l','e']
  else if b = 13 then ['s','t','r','i','n','g']
  else if b = 14 then ['p','o','i','n','t','e','r']
  else if b = 15 then ['u','s','t','r','i','n','g','h','a','s','h']
  else ['u','n','k','n','o','w','n']

/-- Modelled from the spec: the keyword, if any, naming a
base+aggregate(+semantics) combination.  Only the float-based aggregates
have names in the grammar. -/
def comboName (b a v : Nat) : Option (List Char) :=
  if b = 11 ∧ a = 3 then
    some (if v = 1 then ['c','o','l','o','r']
          else if v = 3 then ['v','e','c','t','o','r']
          else if v = 4 then ['n','o','r','m','a','l']
          else ['p','o','i','n','t'])
  else if b = 11 ∧ a = 2 then some ['v','e','c','t','o','r','2']
  else if b = 11 ∧ a = 4 then some ['v','e','c','t','o','r','4']
  else if b = 11 ∧ a = 9 then some ['m','a','t','r','i','x','3','3']
  else if b = 11 ∧ a = 16 then some ['m','a','t','r','i','x','4','4']
  else none

/-- The name core (everything before the array suffix) of `c_str`. -/
def cstrCore (t : TypeDesc) : List Char :=
  if t.aggregate = 1 then baseName t.basetype
  else
    match comboName t.basetype t.aggregate t.vecsemantics with
    | some nm => nm
    | none => baseName t.basetype

/-- The array suffix of a canonical name: `[N]`, `[]`, or nothing. -/
def arraySuffix (al : Int) : List Char :=
  if al < 0 then ['[', ']']
  else if 0 < al then '[' :: (natToChars al.toNat ++ [']'])
  else []

/-- Modelled from the spec: `TypeDesc::c_str` — the canonical printed
name of a descriptor: keyword core plus array suffix. -/
def c_str (t : TypeDesc) : List Char := cstrCore t ++ arraySuffix t.arraylen

/-- The bracket-suffix law of the spec: for arrays the printed name ends
in the correct `[N]` or `[]` suffix, for non-arrays it contains no
bracket at all. -/
def bracketOK (t : TypeDesc) : Bool :=
  if t.arraylen < 0 then charsSuffix (c_str t) ['[', ']']
  else if 0 < t.arraylen then
    charsSuffix (c_str t) ('[' :: (natToChars t.arraylen.toNat ++ [']']))
  else !((c_str t).contains '[')

/-- The round-trip law for one descriptor: printing then parsing consumes
the whole printed name, yields an equivalent descriptor, and the printed
name has the correct bracket suffix. -/
def roundtripOK (t : TypeDesc) : Bool :=
  ((fromstring (c_str t)).1 == (c_str t).length) &&
    TypeDesc.equivalent (fromstring (c_str t)).2 t && bracketOK t

/-! ### Base-type merging

`TypeDesc::basetype_merge` is implemented in `typedesc.cpp`, which is not
among the sources; everything below is modelled from the spec (section
4.1): the merge of two base kinds is the smallest base kind that can
represent the range and precision of both inputs without loss, and when
no kind can (e.g. a string merged with a number), it falls back to a
conservative default (the widest floating kind, DOUBLE). -/

/-- Value range of the integer base kinds. -/
def intRange : Nat → Option (Int × Int)
  | 2 => some (0, 255)
  | 3 => some (-128, 127)
  | 4 => some (0, 65535)
  | 5 => some (-32768, 32767)
  | 6 => some (0, 4294967295)
  | 7 => some (-2147483648, 2147483647)
  | 8 => some (0, 18446744073709551615)
  | 9 => some (-9223372036854775808, 9223372036854775807)
  | _ => none

/-- Largest magnitude up to which a floating kind represents every
integer exactly (2^mantissa-bits: half 2^11, float 2^24, double 2^53). -/
def floatExactBound : Nat → Option Int
  | 10 => some 2048
  | 11 => some 16777216
  | 12 => some 9007199254740992
  | _ => none

/-- Precision rank (mantissa bits) of the floating kinds. -/
def floatRank : Nat → Option Nat
  | 10 => some 11
  | 11 => some 24
  | 12 => some 53
  | _ => none

/-- Modelled from the spec: lossless-representability between base kinds.
An integer kind fits into an integer kind whose range contains its range,
and into a floating kind whose exact-integer bound covers its range; a
floating kind fits into a floating kind of at least its precision; every
kind fits into itself. -/
def fitsIn (a b : Nat) : Bool :=
  if a = b then true
  else
    match intRange a, intRange b with
    | some (lo, hi), some p => decide (p.1 ≤ lo ∧ hi ≤ p.2)
    | some (lo, hi), none =>
      match floatExactBound b with
      | some m => decide (-m ≤ lo ∧ hi ≤ m)
      | none => false
    | none, _ =>
      match floatRank a, floatRank b with
      | some r, some s => decide (r ≤ s)
      | _, _ => false

/-- Candidate kinds in order of increasing capability (width, with each
floating kind placed by its byte size). -/
def mergeOrder : List Nat := [0, 1, 2, 3, 4, 5, 10, 6, 7, 11, 8, 9, 12, 13, 14, 15]

/-- Modelled from the spec: merge of two base kinds — the smallest
candidate kind that both inputs fit into losslessly, falling back to the
conservative default DOUBLE when there is none. -/
def mergeBase (a b : Nat) : Nat :=
  match mergeOrder.find? (fun c => fitsIn a c && fitsIn b c) with
  | some c => c
  | none => 12

/-- `TypeDesc::basetype_merge` on descriptors (it only reads the base
kinds). -/
def basetype_merge (a b : TypeDesc) : Nat := mergeBase a.basetype b.basetype

/-- Is this base kind one of the integer kinds? -/
def isIntKind (x : Nat) : Bool := decide (2 ≤ x ∧ x ≤ 9)

/-- Is this base kind one of the floating kinds? -/
def isFloatKind (x : Nat) : Bool := decide (10 ≤ x ∧ x ≤ 12)

/-! ## Theorems

First, the spec's own example scenarios, checked by evaluation. -/

example : fromstring ['f', 'l', 'o', 'a', 't', '[', '3', ']'] = (8, ⟨11, 1, 0, 0, 3⟩) := by decide
example : TypeDesc.size 8 ⟨11, 1, 0, 0, 3⟩ = 12 := by decide
example : fromstring ['p', 'o', 'i', 'n', 't'] = (5, TypePoint) := by decide
example : fromstring ['i', 'n', 't', '[', ']'] = (5, ⟨7, 1, 0, 0, -1⟩) := by decide
example : TypeDesc.lenAssertOK ⟨7, 1, 0, 0, -1⟩ = false := by decide
example : fromstring ['u', 'i', 'n', 't', '1', '6', '[', ' ', ']'] = (9, ⟨4, 1, 0, 0, -1⟩) := by decide
example : fromstring ['b', 'o', 'g', 'u', 's'] = (0, TypeUnknown) := by decide
example : fromstring ['f', 'l', 'o', 'a', 't', '[', 'x'] = (0, TypeUnknown) := by decide
example : fromstringInto TypeHalf ['i', 'n', 't', '3', '2', 'x'] = (5, ⟨7, 1, 0, 0, 0⟩) := by decide
example : c_str TypeKeyCode = ['i', 'n', 't', '[', '7', ']'] := by decide

lemma basesize_le_eight (t : TypeDesc) : t.basesize ≤ 8 := by
  unfold TypeDesc.basesize
  split_ifs <;> norm_num

/-- C1: for every descriptor with non-negative arraylen,
`size() = numelements() * aggregate * basesize()`, saturating at the
maximum representable `size_t` instead of wrapping around (stated as a
`min` with the maximum, for both modelled platforms `sizeof(size_t) = 4`
and `= 8`). -/
theorem claim_C1_size_saturating :
    ∀ (t : TypeDesc) (szt : Nat), t.WF → (szt = 4 ∨ szt = 8) → 0 ≤ t.arraylen →
      TypeDesc.size szt t =
        min (t.numelements * t.aggregate * t.basesize) (2 ^ (8 * szt) - 1) := by
  intro t szt hwf hszt _
  obtain ⟨_, hagg, _, _, hhi⟩ := hwf
  have hbs : t.basesize ≤ 8 := basesize_le_eight t
  have ha_eq : (if 0 < t.arraylen then t.arraylen.toNat else 1) = t.numelements := by
    unfold TypeDesc.numelements
    by_cases h : 0 < t.arraylen
    · rw [if_pos h, if_pos (by omega)]
    · rw [if_neg h, if_neg (by omega)]
  have hne : t.numelements ≤ 2 ^ 31 := by
    unfold TypeDesc.numelements
    split <;> omega
  have hprod : t.numelements * (t.aggregate * t.basesize) ≤ 2 ^ 31 * (256 * 8) :=
    Nat.mul_le_mul hne (Nat.mul_le_mul (by omega) hbs)
  have hassoc : t.numelements * t.aggregate * t.basesize
      = t.numelements * (t.aggregate * t.basesize) := Nat.mul_assoc _ _ _
  simp only [TypeDesc.size, TypeDesc.elementsize, ha_eq]
  rcases hszt with rfl | rfl
  · rw [if_neg (by norm_num)]
    rw [Nat.mod_eq_of_lt (by omega)]
    rw [hassoc]
    split_ifs <;> omega
  · rw [if_pos (by norm_num)]
    rw [Nat.mod_eq_of_lt (by omega), hassoc]
    omega

theorem claim_C1_size_saturating_witness :
    TypeDesc.size 4 ⟨12, 16, 0, 0, 1073741824⟩ = 4294967295 ∧
    TypeDesc.size 8 TypeKeyCode = 28 :=
  ⟨(claim_C1_size_saturating ⟨12, 16, 0, 0, 1073741824⟩ 4 (by decide)
      (Or.inl rfl) (by decide)).trans (by decide),
   (claim_C1_size_saturating TypeKeyCode 8 (by decide)
      (Or.inr rfl) (by decide)).trans (by decide)⟩

/-- C2: `equivalent(a, b)` holds exactly when the base kinds and
aggregates agree and the array lengths agree exactly or pair a negative
(unresolved) length with a positive (fixed) one; the semantics fields do
not appear in the characterization. -/
theorem claim_C2_equivalent_characterization :
    ∀ a b : TypeDesc, TypeDesc.equivalent a b = true ↔
      (a.basetype = b.basetype ∧ a.aggregate = b.aggregate ∧
        (a.arraylen = b.arraylen ∨ (a.arraylen < 0 ∧ 0 < b.arraylen) ∨
          (0 < a.arraylen ∧ b.arraylen < 0))) := by
  intro a b
  simp [TypeDesc.equivalent, TypeDesc.is_unsized_array, TypeDesc.is_sized_array,
    Bool.and_eq_true, Bool.or_eq_true, beq_iff_eq, decide_eq_true_eq, and_assoc,
    or_assoc]

/-- C3: equivalence is symmetric, equality implies equivalence, and
there are equivalent but unequal descriptors differing only in sized
versus unresolved array length. -/
theorem claim_C3_equivalent_algebra :
    (∀ a b : TypeDesc, TypeDesc.equivalent a b = TypeDesc.equivalent b a) ∧
    (∀ a b : TypeDesc, TypeDesc.tdEq a b = true → TypeDesc.equivalent a b = true) ∧
    (∃ a b : TypeDesc, TypeDesc.equivalent a b = true ∧ TypeDesc.tdEq a b = false ∧
      a.basetype = b.basetype ∧ a.aggregate = b.aggregate ∧
      a.vecsemantics = b.vecsemantics ∧ a.arraylen ≠ b.arraylen ∧
      a.is_sized_array = true ∧ b.is_unsized_array = true) := by
  refine ⟨?_, ?_, ?_⟩
  · intro a b
    rw [Bool.eq_iff_iff]
    simp only [TypeDesc.equivalent, TypeDesc.is_unsized_array, TypeDesc.is_sized_array,
      Bool.and_eq_true, Bool.or_eq_true, beq_iff_eq, decide_eq_true_eq]
    constructor <;> rintro ⟨⟨h1, h2⟩, h3⟩ <;>
      exact ⟨⟨h1.symm, h2.symm⟩, by tauto⟩
  · intro a b h
    simp only [TypeDesc.tdEq, Bool.and_eq_true, beq_iff_eq] at h
    simp [TypeDesc.equivalent, h.1.1.1, h.1.1.2, h.2]
  · exact ⟨⟨11, 1, 0, 0, 3⟩, ⟨11, 1, 0, 0, -1⟩, by decide, by decide, rfl, rfl, rfl,
      by decide, by decide, by decide⟩

theorem claim_C3_equivalent_algebra_witness :
    TypeDesc.equivalent TypePoint TypeVector = TypeDesc.equivalent TypeVector TypePoint ∧
    TypeDesc.equivalent TypeBox2 TypeBox2 = true :=
  ⟨claim_C3_equivalent_algebra.1 TypePoint TypeVector,
   claim_C3_equivalent_algebra.2.1 TypeBox2 TypeBox2 (by decide)⟩

/-- C4: for non-negative arraylen, `numelements()` is `max(arraylen, 1)`,
`basevalues()` is `numelements() * aggregate`, and the internal
assertion passes; for negative arraylen the debug assertion fires. -/
theorem claim_C4_numelements_basevalues :
    ∀ t : TypeDesc,
      (0 ≤ t.arraylen →
        t.numelements = max t.arraylen.toNat 1 ∧
        t.basevalues = t.numelements * t.aggregate ∧
        t.lenAssertOK = true) ∧
      (t.arraylen < 0 → t.lenAssertOK = false) := by
  intro t
  constructor
  · intro h
    refine ⟨?_, rfl, by simp [TypeDesc.lenAssertOK, h]⟩
    unfold TypeDesc.numelements
    split <;> omega
  · intro h
    simp only [TypeDesc.lenAssertOK, decide_eq_false_iff_not]
    omega

theorem claim_C4_numelements_basevalues_witness :
    (TypeKeyCode.numelements = max TypeKeyCode.arraylen.toNat 1 ∧
     TypeKeyCode.basevalues = TypeKeyCode.numelements * TypeKeyCode.aggregate ∧
     TypeKeyCode.lenAssertOK = true) ∧
    TypeDesc.lenAssertOK ⟨11, 1, 0, 0, -1⟩ = false :=
  ⟨(claim_C4_numelements_basevalues TypeKeyCode).1 (by decide),
   (claim_C4_numelements_basevalues ⟨11, 1, 0, 0, -1⟩).2 (by decide)⟩

/-- C7: a descriptor compares equal to a bare base kind exactly when its
base kind matches, its aggregate is scalar, and it is not an array. -/
theorem claim_C7_basetype_compare :
    ∀ (t : TypeDesc) (b : Nat), TypeDesc.tdEqBase t b = true ↔
      (t.basetype = b ∧ t.aggregate = 1 ∧ t.arraylen = 0) := by
  intro t b
  simp [TypeDesc.tdEqBase, TypeDesc.is_array, Bool.and_eq_true, beq_iff_eq,
    and_assoc]

/-- C8 counterexample: `scalartype()` does not preserve the semantics
field — on `TypeColor` it resets the COLOR hint to NOSEMANTICS, so it is
not `t` with only arraylen zeroed and aggregate set to scalar. -/
theorem claim_C8_projections_counterexample :
    TypeDesc.scalartype TypeColor ≠ { TypeColor with arraylen := 0, aggregate := 1 } := by
  decide

/-- C8 amended: `elementtype(t)` is `t` with arraylen zeroed and all
other fields unchanged; `scalartype(t)` is the bare scalar descriptor of
`t`'s base kind — aggregate scalar, arraylen 0, and semantics *reset* to
NOSEMANTICS (not preserved); both are pure and total. -/
theorem claim_C8_projections_amended :
    ∀ t : TypeDesc,
      t.elementtype = { t with arraylen := 0 } ∧
      t.scalartype = ⟨t.basetype, 1, 0, 0, 0⟩ :=
  fun _ => ⟨rfl, rfl⟩

/-- C10: equivalence is not transitive — `float[3] ~ float[] ~ float[5]`
but `float[3] !~ float[5]` — and an unsized array is never equivalent to
a non-array of the same base and aggregate. -/
theorem claim_C10_equivalence_not_transitive :
    (∃ a b c : TypeDesc,
      TypeDesc.equivalent a b = true ∧ TypeDesc.equivalent b c = true ∧
      TypeDesc.equivalent a c = false ∧
      a.is_sized_array = true ∧ b.is_unsized_array = true ∧ c.is_sized_array = true ∧
      a.basetype = c.basetype ∧ a.aggregate = c.aggregate ∧ a.arraylen ≠ c.arraylen) ∧
    (∀ a b : TypeDesc, a.is_unsized_array = true → b.arraylen = 0 →
      TypeDesc.equivalent a b = false) := by
  constructor
  · exact ⟨⟨11, 1, 0, 0, 3⟩, ⟨11, 1, 0, 0, -1⟩, ⟨11, 1, 0, 0, 5⟩, by decide, by decide,
      by decide, by decide, by decide, by decide, rfl, rfl, by decide⟩
  · intro a b ha hb
    simp only [TypeDesc.is_unsized_array, decide_eq_true_eq] at ha
    rw [Bool.eq_false_iff]
    intro hcontra
    simp only [TypeDesc.equivalent, TypeDesc.is_unsized_array, TypeDesc.is_sized_array,
      Bool.and_eq_true, Bool.or_eq_true, beq_iff_eq, decide_eq_true_eq] at hcontra
    omega

theorem claim_C10_equivalence_not_transitive_witness :
    TypeDesc.equivalent ⟨11, 3, 0, 0, -1⟩ ⟨11, 3, 0, 0, 0⟩ = false :=
  claim_C10_equivalence_not_transitive.2 _ _ (by decide) rfl

lemma mergeBase_idem : ∀ x < 16, mergeBase x x = x := by decide

lemma mergeBase_comm : ∀ x < 16, ∀ y < 16, mergeBase x y = mergeBase y x := by decide

lemma mergeBase_int_float_small : ∀ x < 8, ∀ y < 16,
    isIntKind x = true → isFloatKind y = true →
    isFloatKind (mergeBase x y) = true ∧ fitsIn x (mergeBase x y) = true := by decide

lemma mergeBase_int64_float : ∀ y < 16, isFloatKind y = true →
    mergeBase 8 y = 12 ∧ mergeBase 9 y = 12 := by decide

/-- C9 counterexample: merging a 64-bit integer kind with a floating kind
yields DOUBLE, whose exact-integer bound 2^53 is below the INT64 maximum
2^63 - 1, so the result cannot represent the integer's full range without
loss — refuting the third clause of the claim. -/
theorem claim_C9_merge_counterexample :
    basetype_merge TypeInt64 TypeFloat = 12 ∧
    isFloatKind 12 = true ∧
    fitsIn TypeInt64.basetype 12 = false ∧
    floatExactBound 12 = some 9007199254740992 ∧
    ((9007199254740992 : Int) < 9223372036854775807) := by decide

/-- C9 amended: `basetype_merge` is idempotent and symmetric on valid
base kinds; merging an integer kind of width at most 32 bits with a
floating kind yields a floating kind that holds the integer's full range
without loss, while merging a 64-bit integer kind with a floating kind
yields DOUBLE, the widest floating kind (which cannot hold the full
64-bit range). -/
theorem claim_C9_merge_amended :
    ∀ a b : TypeDesc, a.basetype < 16 → b.basetype < 16 →
      basetype_merge a a = a.basetype ∧
      basetype_merge a b = basetype_merge b a ∧
      (isIntKind a.basetype = true → isFloatKind b.basetype = true →
        ((a.basetype < 8 →
           isFloatKind (basetype_merge a b) = true ∧
           fitsIn a.basetype (basetype_merge a b) = true) ∧
         (8 ≤ a.basetype → basetype_merge a b = 12))) := by
  intro a b ha hb
  refine ⟨mergeBase_idem _ ha, mergeBase_comm _ ha _ hb, ?_⟩
  intro hint hfl
  constructor
  · intro h8
    exact mergeBase_int_float_small _ h8 _ hb hint hfl
  · intro h8
    have hcase : a.basetype = 8 ∨ a.basetype = 9 := by
      simp only [isIntKind, decide_eq_true_eq] at hint
      omega
    rcases hcase with h | h <;> rw [basetype_merge, h]
    · exact (mergeBase_int64_float _ hb hfl).1
    · exact (mergeBase_int64_float _ hb hfl).2

theorem claim_C9_merge_amended_witness :
    basetype_merge TypeUInt8 TypeUInt8 = TypeUInt8.basetype ∧
    isFloatKind (basetype_merge TypeUInt8 TypeHalf) = true ∧
    fitsIn TypeUInt8.basetype (basetype_merge TypeUInt8 TypeHalf) = true := by
  have h := claim_C9_merge_amended TypeUInt8 TypeHalf (by decide) (by decide)
  exact ⟨h.1, ((h.2.2 (by decide) (by decide)).1 (by decide)).1,
    ((h.2.2 (by decide) (by decide)).1 (by decide)).2⟩

/-! ### Parser structure lemmas -/

lemma charsPrefix_length_le : ∀ (k s : List Char), charsPrefix k s = true → k.length ≤ s.length := by
  intro k
  induction k with
  | nil => intro s _; exact Nat.zero_le _
  | cons a as ih =>
    intro s h
    cases s with
    | nil => exact absurd h (by simp [charsPrefix])
    | cons b bs =>
      simp only [charsPrefix, Bool.and_eq_true] at h
      have := ih bs h.2
      simp only [List.length_cons]
      omega

lemma charsPrefix_append_self : ∀ (p q : List Char), charsPrefix p (p ++ q) = true := by
  intro p q
  induction p with
  | nil => rfl
  | cons a as ih => simp [charsPrefix, ih]

lemma charsSuffix_append (x y : List Char) : charsSuffix (x ++ y) y = true := by
  unfold charsSuffix
  rw [List.reverse_append]
  exact charsPrefix_append_self _ _

lemma matchKeyword_mem :
    ∀ (tbl : List (List Char × TypeDesc)) (s : List Char) (n : Nat) (td : TypeDesc),
      matchKeyword tbl s = some (n, td) →
      ∃ k, (k, td) ∈ tbl ∧ n = k.length ∧ charsPrefix k s = true := by
  intro tbl
  induction tbl with
  | nil => intro s n td h; exact absurd h (by simp [matchKeyword])
  | cons p tbl ih =>
    intro s n td h
    obtain ⟨k0, td0⟩ := p
    rw [matchKeyword] at h
    split at h
    · next hp =>
      injection h with h1
      injection h1 with ha hb
      exact ⟨k0, by simp [← hb], ha.symm, hp⟩
    · next hp =>
      obtain ⟨k, hk, hn, hpf⟩ := ih s n td h
      exact ⟨k, List.mem_cons_of_mem _ hk, hn, hpf⟩

lemma keywordTable_keys_nonempty : ∀ p ∈ keywordTable, p.1 ≠ [] := by decide

lemma skipSpaces_length : ∀ l : List Char, (skipSpaces l).1 + (skipSpaces l).2.length = l.length := by
  intro l
  induction l with
  | nil => rfl
  | cons c rest ih =>
    rw [skipSpaces]
    split
    · simp only [List.length_cons]
      omega
    · simp

lemma takeDigits_split : ∀ l : List Char, (takeDigits l).1 ++ (takeDigits l).2 = l := by
  intro l
  induction l with
  | nil => rfl
  | cons c rest ih =>
    rw [takeDigits]
    split
    · simpa using ih
    · rfl

lemma takeDigits_length (l : List Char) :
    (takeDigits l).1.length + (takeDigits l).2.length = l.length := by
  have h := congrArg List.length (takeDigits_split l)
  simpa using h

lemma isCloseBracket_length (l : List Char) (h : isCloseBracket l = true) : 1 ≤ l.length := by
  cases l with
  | nil => exact absurd h (by simp [isCloseBracket])
  | cons c cs => simp

lemma parseBracketTail_length_le :
    ∀ (l : List Char) (n : Nat) (al : Int), parseBracketTail l = some (n, al) → n ≤ l.length := by
  intro l n al h
  cases l with
  | nil =>
    rw [parseBracketTail] at h
    simp only [Option.some.injEq, Prod.mk.injEq] at h
    omega
  | cons c rest =>
    rw [parseBracketTail] at h
    split_ifs at h with hc hemp hclose1 hclose2
    · simp only [Option.some.injEq, Prod.mk.injEq] at h
      have h1 := skipSpaces_length rest
      have h2 := isCloseBracket_length _ hclose1
      simp only [List.length_cons]
      omega
    · simp only [Option.some.injEq, Prod.mk.injEq] at h
      have h1 := takeDigits_length rest
      have h2 := isCloseBracket_length _ hclose2
      simp only [List.length_cons]
      omega
    · simp only [Option.some.injEq, Prod.mk.injEq] at h
      simp only [List.length_cons]
      omega

lemma fromstring_cases (s : List Char) :
    fromstring s = (0, ⟨0, 1, 0, 0, 0⟩) ∨
      (0 < (fromstring s).1 ∧ (fromstring s).1 ≤ s.length) := by
  cases hm : matchKeyword keywordTable s with
  | none => exact Or.inl (by simp [fromstring, hm])
  | some p =>
    obtain ⟨n, td⟩ := p
    obtain ⟨k, hk, hn, hpf⟩ := matchKeyword_mem _ _ _ _ hm
    have hkne : k ≠ [] := keywordTable_keys_nonempty (k, td) hk
    have hn0 : 0 < n := hn ▸ List.length_pos.mpr hkne
    have hnle : n ≤ s.length := hn ▸ charsPrefix_length_le _ _ hpf
    cases hb : parseBracketTail (List.drop n s) with
    | none => exact Or.inl (by simp [fromstring, hm, hb])
    | some q =>
      obtain ⟨m, al⟩ := q
      have hmle : m ≤ (List.drop n s).length := parseBracketTail_length_le _ _ _ hb
      rw [List.length_drop] at hmle
      have hfs : fromstring s = (n + m, { td with arraylen := al }) := by
        simp [fromstring, hm, hb]
      rw [hfs]
      refine Or.inr ⟨?_, ?_⟩
      · show 0 < n + m
        omega
      · show n + m ≤ s.length
        omega

lemma fromstringInto_pos (t0 : TypeDesc) (s : List Char) (h : 0 < (fromstring s).1) :
    fromstringInto t0 s = fromstring s := by
  unfold fromstringInto
  rw [if_neg (by omega)]

/-- C6 counterexample: per the header contract (typedesc.h lines
250-254), a failed `fromstring` returns 0 and does *not* modify the
descriptor, so a descriptor that was not unknown before the failed parse
is not left at the unknown state. -/
theorem claim_C6_parse_failure_counterexample :
    fromstringInto TypeFloat ['b', 'o', 'g', 'u', 's'] = (0, TypeFloat) ∧
    TypeFloat ≠ (⟨0, 1, 0, 0, 0⟩ : TypeDesc) := by decide

/-- C6 amended: on any input, parsing either fails — reporting zero
consumed characters, leaving the prior descriptor unmodified, and giving
the unknown descriptor when invoked through the string constructor — or
succeeds, consuming a positive number of leading characters bounded by
the input length; the parser is a total function (it never throws or
aborts). -/
theorem claim_C6_parse_failure_amended :
    ∀ (t0 : TypeDesc) (s : List Char),
      ((fromstringInto t0 s).1 = 0 ∧ (fromstringInto t0 s).2 = t0 ∧
        typeDescOfChars s = ⟨0, 1, 0, 0, 0⟩) ∨
      (0 < (fromstringInto t0 s).1 ∧ (fromstringInto t0 s).1 ≤ s.length ∧
        typeDescOfChars s = (fromstringInto t0 s).2) := by
  intro t0 s
  rcases fromstring_cases s with h | ⟨h1, h2⟩
  · left
    refine ⟨?_, ?_, ?_⟩ <;> simp [fromstringInto, typeDescOfChars, h]
  · right
    rw [fromstringInto_pos t0 s h1, typeDescOfChars, fromstringInto_pos _ s h1]
    exact ⟨h1, h2, rfl⟩

/-! ### Digit-rendering lemmas -/

lemma natToCharsAux_eq : ∀ (n f1 f2 : Nat) (acc : List Char), n < f1 → n < f2 →
    natToCharsAux f1 n acc = natToCharsAux f2 n acc := by
  intro n
  induction n using Nat.strong_induction_on with
  | _ n ih =>
    intro f1 f2 acc h1 h2
    cases f1 with
    | zero => omega
    | succ g1 =>
      cases f2 with
      | zero => omega
      | succ g2 =>
        simp only [natToCharsAux]
        by_cases hn : n < 10
        · rw [if_pos hn, if_pos hn]
        · rw [if_neg hn, if_neg hn]
          exact ih (n / 10) (by omega) g1 g2 _ (by omega) (by omega)

lemma natToCharsAux_acc : ∀ (f n : Nat) (acc : List Char),
    natToCharsAux f n acc = natToCharsAux f n [] ++ acc := by
  intro f
  induction f with
  | zero => intro n acc; rfl
  | succ f ih =>
    intro n acc
    simp only [natToCharsAux]
    by_cases hn : n < 10
    · rw [if_pos hn, if_pos hn]
      rfl
    · rw [if_neg hn, if_neg hn]
      rw [ih (n / 10) (Char.ofNat (48 + n % 10) :: acc),
        ih (n / 10) (Char.ofNat (48 + n % 10) :: ([] : List Char))]
      simp

lemma natToChars_step (n : Nat) (hn : 10 ≤ n) :
    natToChars n = natToChars (n / 10) ++ [Char.ofNat (48 + n % 10)] := by
  unfold natToChars
  conv_lhs => rw [natToCharsAux]
  rw [if_neg (by omega)]
  rw [natToCharsAux_acc]
  congr 1
  exact natToCharsAux_eq (n / 10) n (n / 10 + 1) [] (by omega) (by omega)

lemma natToChars_small (n : Nat) (hn : n < 10) :
    natToChars n = [Char.ofNat (48 + n)] := by
  unfold natToChars
  rw [natToCharsAux]
  rw [if_pos hn]

lemma digit_char_isDigit (m : Nat) (hm : m < 10) : (Char.ofNat (48 + m)).isDigit = true := by
  interval_cases m <;> decide

lemma digit_char_val (m : Nat) (hm : m < 10) : digitVal (Char.ofNat (48 + m)) = m := by
  interval_cases m <;> decide

lemma natToChars_spec : ∀ n : Nat,
    (∀ c ∈ natToChars n, c.isDigit = true) ∧
      digitsToNat (natToChars n) = n ∧ natToChars n ≠ [] := by
  intro n
  induction n using Nat.strong_induction_on with
  | _ n ih =>
    by_cases hn : n < 10
    · rw [natToChars_small n hn]
      refine ⟨?_, ?_, by simp⟩
      · intro c hc
        simp only [List.mem_singleton] at hc
        subst hc
        exact digit_char_isDigit n hn
      · simp only [digitsToNat, List.foldl_cons, List.foldl_nil]
        have := digit_char_val n hn
        omega
    · obtain ⟨ihd, ihv, _⟩ := ih (n / 10) (by omega)
      rw [natToChars_step n (by omega)]
      refine ⟨?_, ?_, by simp⟩
      · intro c hc
        rcases List.mem_append.mp hc with h | h
        · exact ihd c h
        · simp only [List.mem_singleton] at h
          subst h
          exact digit_char_isDigit _ (by omega)
      · simp only [digitsToNat, List.foldl_append, List.foldl_cons, List.foldl_nil]
        simp only [digitsToNat] at ihv
        rw [ihv, digit_char_val _ (by omega)]
        omega

/-! ### Round-trip lemmas -/

lemma takeDigits_append_close (D tail : List Char) (hD : ∀ c ∈ D, c.isDigit = true) :
    takeDigits (D ++ ']' :: tail) = (D, ']' :: tail) := by
  induction D with
  | nil =>
    simp only [List.nil_append]
    rw [takeDigits]
    rw [if_neg (by decide)]
  | cons d D ih =>
    have hd : d.isDigit = true := hD d (by simp)
    simp only [List.cons_append]
    rw [takeDigits, if_pos hd]
    rw [ih (fun c hc => hD c (by simp [hc]))]

lemma parseBracketTail_sized (m : Nat) (tail : List Char) :
    parseBracketTail ('[' :: (natToChars m ++ ']' :: tail)) =
      some ((natToChars m).length + 2, (m : Int)) := by
  obtain ⟨hdig, hv, hne⟩ := natToChars_spec m
  obtain ⟨d, D, hDD⟩ : ∃ d D, natToChars m = d :: D := by
    cases h : natToChars m with
    | nil => exact absurd h hne
    | cons d D => exact ⟨d, D, rfl⟩
  have htd : takeDigits (natToChars m ++ ']' :: tail) = (natToChars m, ']' :: tail) :=
    takeDigits_append_close _ _ hdig
  rw [parseBracketTail, if_pos rfl, htd, hDD]
  rw [if_neg (by simp)]
  rw [if_pos (by simp [isCloseBracket])]
  show some ((d :: D).length + 2, (digitsToNat (d :: D) : Int))
      = some ((d :: D).length + 2, (m : Int))
  rw [hDD] at hv
  rw [hv]

lemma parseBracketTail_shape (l : List Char) (m : Nat) (al : Int)
    (h : parseBracketTail l = some (m, al)) : al = -1 ∨ ∃ k : Nat, al = (k : Int) := by
  cases l with
  | nil =>
    rw [parseBracketTail] at h
    simp only [Option.some.injEq, Prod.mk.injEq] at h
    exact Or.inr ⟨0, h.2.symm⟩
  | cons c rest =>
    rw [parseBracketTail] at h
    split_ifs at h with hc hemp hclose1 hclose2
    · simp only [Option.some.injEq, Prod.mk.injEq] at h
      exact Or.inl h.2.symm
    · simp only [Option.some.injEq, Prod.mk.injEq] at h
      exact Or.inr ⟨digitsToNat (takeDigits rest).1, h.2.symm⟩
    · simp only [Option.some.injEq, Prod.mk.injEq] at h
      exact Or.inr ⟨0, h.2.symm⟩

lemma cstrCore_set_arraylen (td : TypeDesc) (al : Int) :
    cstrCore { td with arraylen := al } = cstrCore td := rfl

lemma roundtrip_sized_generic (td td0 : TypeDesc) (k : Nat)
    (hm : matchKeyword keywordTable
        (cstrCore td ++ '[' :: (natToChars (k + 1) ++ [']'])) =
      some ((cstrCore td).length, td0))
    (hb : td0.basetype = td.basetype) (ha : td0.aggregate = td.aggregate) :
    roundtripOK { td with arraylen := ((k + 1 : Nat) : Int) } = true := by
  have htn : ((k + 1 : Nat) : Int).toNat = k + 1 := rfl
  have hsuf : arraySuffix ((k + 1 : Nat) : Int) = '[' :: (natToChars (k + 1) ++ [']']) := by
    unfold arraySuffix
    rw [if_neg (by omega), if_pos (by omega), htn]
  have hfull : c_str { td with arraylen := ((k + 1 : Nat) : Int) } =
      cstrCore td ++ '[' :: (natToChars (k + 1) ++ [']']) := by
    show cstrCore { td with arraylen := ((k + 1 : Nat) : Int) }
        ++ arraySuffix ((k + 1 : Nat) : Int) = _
    rw [cstrCore_set_arraylen, hsuf]
  have hdrop : (cstrCore td ++ '[' :: (natToChars (k + 1) ++ [']'])).drop (cstrCore td).length
      = '[' :: (natToChars (k + 1) ++ [']']) := List.drop_left _ _
  have hpb := parseBracketTail_sized (k + 1) ([] : List Char)
  have hfs : fromstring (cstrCore td ++ '[' :: (natToChars (k + 1) ++ [']'])) =
      ((cstrCore td).length + ((natToChars (k + 1)).length + 2),
        { td0 with arraylen := ((k + 1 : Nat) : Int) }) := by
    simp [fromstring, hm, hdrop, hpb]
  unfold roundtripOK
  rw [hfull, hfs]
  simp only [Bool.and_eq_true, beq_iff_eq]
  refine ⟨⟨?_, ?_⟩, ?_⟩
  · simp only [List.length_append, List.length_cons, List.length_nil]
    try omega
  · simp only [TypeDesc.equivalent, TypeDesc.is_unsized_array, TypeDesc.is_sized_array,
      Bool.and_eq_true, Bool.or_eq_true, beq_iff_eq, decide_eq_true_eq]
    exact ⟨⟨hb, ha⟩, Or.inl (Or.inl trivial)⟩
  · unfold bracketOK
    have hproj : ({ td with arraylen := ((k + 1 : Nat) : Int) } : TypeDesc).arraylen
        = ((k + 1 : Nat) : Int) := rfl
    rw [hproj, if_neg (by omega), if_pos (by omega), htn, hfull]
    exact charsSuffix_append _ _

lemma keywordTypes_roundtrip :
    ∀ (kw : List Char) (td : TypeDesc), (kw, td) ∈ keywordTable →
      ∀ al : Int, (al = -1 ∨ ∃ k : Nat, al = (k : Int)) →
        roundtripOK { td with arraylen := al } = true := by
  intro kw td mem al hal
  rcases hal with rfl | ⟨k, rfl⟩
  · fin_cases mem <;> decide
  · cases k with
    | zero => fin_cases mem <;> decide
    | succ k => fin_cases mem <;> exact roundtrip_sized_generic _ _ k rfl rfl rfl

lemma roundtrip_of_parse :
    ∀ (s : List Char) (n : Nat) (t : TypeDesc),
      fromstring s = (n, t) → 0 < n → roundtripOK t = true := by
  intro s n t h hn
  cases hm : matchKeyword keywordTable s with
  | none =>
    simp [fromstring, hm] at h
    obtain ⟨h1, _⟩ := h
    omega
  | some p =>
    obtain ⟨klen, td⟩ := p
    cases hb : parseBracketTail (s.drop klen) with
    | none =>
      simp [fromstring, hm, hb] at h
      obtain ⟨h1, _⟩ := h
      omega
    | some q =>
      obtain ⟨m, al⟩ := q
      have hfs : fromstring s = (klen + m, { td with arraylen := al }) := by
        simp [fromstring, hm, hb]
      rw [hfs] at h
      obtain ⟨k, hk, _, _⟩ := matchKeyword_mem _ _ _ _ hm
      have hshape := parseBracketTail_shape _ _ _ hb
      have ht : t = { td with arraylen := al } := by
        simp only [Prod.mk.injEq] at h
        exact h.2.symm
      rw [ht]
      exact keywordTypes_roundtrip k td hk al hshape

/-- C5 counterexample: the claim fails on the well-known constants whose
base/aggregate combination has no name in the specified grammar.  For
`TypeRational` (an int-based 2-vector) the printed name parses back to a
descriptor that is not equivalent to it, and likewise for
`TypeVector2i`. -/
theorem claim_C5_roundtrip_counterexample :
    roundtripOK TypeRational = false ∧
    TypeDesc.equivalent (fromstring (c_str TypeRational)).2 TypeRational = false ∧
    roundtripOK TypeVector2i = false := by decide

/-- C5 amended: the print/parse round trip — full consumption of the
printed name, equivalence of the reparsed descriptor, correct `[N]`/`[]`
suffix for arrays, no brackets for non-arrays — holds for every
well-known constant representable in the spec's name grammar (all of the
catalog except the five integer-vector/box/rational constants), and for
every descriptor produced by successfully parsing any type-name string. -/
theorem claim_C5_roundtrip_amended :
    nameableTypes.all roundtripOK = true ∧
    (∀ (s : List Char) (n : Nat) (t : TypeDesc),
      fromstring s = (n, t) → 0 < n → roundtripOK t = true) :=
  ⟨by decide, roundtrip_of_parse⟩

theorem claim_C5_roundtrip_amended_witness :
    roundtripOK ⟨7, 1, 0, 0, 25⟩ = true :=
  claim_C5_roundtrip_amended.2 ['i', 'n', 't', '[', '2', '5', ']'] 7 ⟨7, 1, 0, 0, 25⟩
    (by decide) (by decide)
